import Mathlib

/-!
Verification of the presence and contact-list core of the escargot
instant-messaging server, shallowly embedded from `src/core/models.py`,
`src/core/notification.py` and `src/core/user.py`.

Python dictionaries are modelled as association lists (`lookupk`, `setk`,
`delk`); the heap of shared `User` objects is modelled as a store keyed by
uuid inside `ServerState`, and `Contact.head` as the head user's uuid into
that store.  Integer list flags are natural numbers combined with `&&&`,
`|||` and `andNot` (Python `x & ~mask`).
-/

set_option autoImplicit false

namespace Escargot

section AssocHelpers

variable {κ α : Type} [DecidableEq κ]

/-- Lookup in an association list, first binding wins (Python `dict.get`). -/
def lookupk : List (κ × α) → κ → Option α
  | [], _ => none
  | p :: t, k => if p.1 = k then some p.2 else lookupk t k

/-- Replace the binding of `k` (or append it), as `d[k] = v` on a Python dict. -/
def setk : List (κ × α) → κ → α → List (κ × α)
  | [], k, v => [(k, v)]
  | p :: t, k, v => if p.1 = k then (k, v) :: t else p :: setk t k v

/-- Delete the binding of `k`, as `del d[k]` on a Python dict. -/
def delk : List (κ × α) → κ → List (κ × α)
  | [], _ => []
  | p :: t, k => if p.1 = k then t else p :: delk t k

def keysOf (m : List (κ × α)) : List κ := m.map Prod.fst

/-- Well-formedness of an association list used as a dict: keys are distinct. -/
def Nodupk (m : List (κ × α)) : Prop := (keysOf m).Nodup

instance (m : List (κ × α)) : Decidable (Nodupk m) := by
  unfold Nodupk; infer_instance

theorem lookupk_setk_self (m : List (κ × α)) (k : κ) (v : α) :
    lookupk (setk m k v) k = some v := by
  induction m with
  | nil => simp [setk, lookupk]
  | cons p t ih =>
    by_cases h : p.1 = k
    · simp [setk, h, lookupk]
    · simp [setk, h, lookupk, ih]

theorem keysOf_cons (p : κ × α) (t : List (κ × α)) :
    keysOf (p :: t) = p.1 :: keysOf t := rfl

theorem lookupk_setk_ne (m : List (κ × α)) (k k' : κ) (v : α) (h : k' ≠ k) :
    lookupk (setk m k v) k' = lookupk m k' := by
  induction m with
  | nil => simp [setk, lookupk, Ne.symm h]
  | cons p t ih =>
    by_cases hp : p.1 = k
    · subst hp
      simp [setk, lookupk, Ne.symm h, h]
    · by_cases hp' : p.1 = k'
      · simp [setk, hp, lookupk, hp', h, ih]
      · simp [setk, hp, lookupk, hp', ih]

theorem lookupk_delk_ne (m : List (κ × α)) (k k' : κ) (h : k' ≠ k) :
    lookupk (delk m k) k' = lookupk m k' := by
  induction m with
  | nil => simp [delk]
  | cons p t ih =>
    by_cases hp : p.1 = k
    · subst hp
      simp [delk, lookupk, Ne.symm h]
    · by_cases hp' : p.1 = k'
      · simp [delk, hp, lookupk, hp', h, ih]
      · simp [delk, hp, lookupk, hp', ih]

theorem lookupk_eq_none_iff (m : List (κ × α)) (k : κ) :
    lookupk m k = none ↔ k ∉ keysOf m := by
  induction m with
  | nil => simp [lookupk, keysOf]
  | cons p t ih =>
    by_cases hp : p.1 = k
    · simp [lookupk, hp, keysOf_cons]
    · rw [lookupk, if_neg hp, ih]
      simp [keysOf_cons, Ne.symm hp]

theorem lookupk_isSome_iff_mem (m : List (κ × α)) (k : κ) :
    (lookupk m k).isSome = true ↔ k ∈ keysOf m := by
  rw [← Decidable.not_iff_not, ← lookupk_eq_none_iff]
  cases lookupk m k <;> simp

theorem lookupk_delk_self (m : List (κ × α)) (k : κ) (h : Nodupk m) :
    lookupk (delk m k) k = none := by
  induction m with
  | nil => simp [delk, lookupk]
  | cons p t ih =>
    have hh : p.1 ∉ keysOf t ∧ Nodupk t := by
      have h' := h
      rw [Nodupk, keysOf_cons, List.nodup_cons] at h'
      exact h'
    by_cases hp : p.1 = k
    · subst hp
      simp [delk, lookupk_eq_none_iff, hh.1]
    · simp [delk, hp, lookupk, ih hh.2]

theorem lookupk_mapv {β : Type} (f : α → β) (m : List (κ × α)) (k : κ) :
    lookupk (m.map fun p => (p.1, f p.2)) k = (lookupk m k).map f := by
  induction m with
  | nil => simp [lookupk]
  | cons p t ih =>
    by_cases hp : p.1 = k
    · subst hp
      simp [lookupk]
    · simp [lookupk, hp, ih]

end AssocHelpers

section DecimalStrings

/-- Little-endian decimal digits of `n`, with explicit fuel (first argument)
so that the definition is structural and kernel-reducible; fuel `n` is always
sufficient since the value shrinks by a factor of ten each step. -/
def decDigitsAux : Nat → Nat → List Nat
  | 0, _ => []
  | _ + 1, 0 => []
  | fuel + 1, n + 1 => ((n + 1) % 10) :: decDigitsAux fuel ((n + 1) / 10)

def decDigits (n : Nat) : List Nat := decDigitsAux n n

/-- Value of a little-endian decimal digit list. -/
def decVal : List Nat → Nat
  | [] => 0
  | d :: ds => d + 10 * decVal ds

theorem decVal_decDigitsAux : ∀ fuel n, n ≤ fuel → decVal (decDigitsAux fuel n) = n := by
  intro fuel
  induction fuel with
  | zero => intro n h; interval_cases n; simp [decDigitsAux, decVal]
  | succ fuel ih =>
    intro n h
    match n with
    | 0 => simp [decDigitsAux, decVal]
    | n + 1 =>
      have hdiv : (n + 1) / 10 ≤ fuel := by
        have := Nat.div_lt_self (Nat.succ_pos n) (by norm_num : 1 < 10)
        omega
      simp [decDigitsAux, decVal, ih _ hdiv, Nat.mod_add_div]

theorem decVal_decDigits (n : Nat) : decVal (decDigits n) = n :=
  decVal_decDigitsAux n n le_rfl

theorem decDigits_inj {m n : Nat} (h : decDigits m = decDigits n) : m = n := by
  have := congrArg decVal h
  rwa [decVal_decDigits, decVal_decDigits] at this

theorem decDigitsAux_lt : ∀ fuel n, ∀ d ∈ decDigitsAux fuel n, d < 10 := by
  intro fuel
  induction fuel with
  | zero => intro n d hd; simp [decDigitsAux] at hd
  | succ fuel ih =>
    intro n d hd
    match n with
    | 0 => simp [decDigitsAux] at hd
    | n + 1 =>
      simp only [decDigitsAux, List.mem_cons] at hd
      rcases hd with h | h
      · exact h ▸ Nat.mod_lt _ (by norm_num)
      · exact ih _ _ h

/-- Python `str(n)`: the decimal string representation of a natural number. -/
def natToDec (n : Nat) : String :=
  if n = 0 then "0" else String.mk ((decDigits n).reverse.map Nat.digitChar)

theorem digitChar_inj_lt :
    ∀ a, a < 10 → ∀ b, b < 10 → Nat.digitChar a = Nat.digitChar b → a = b := by decide

theorem map_digitChar_inj :
    ∀ l₁ l₂ : List Nat, (∀ d ∈ l₁, d < 10) → (∀ d ∈ l₂, d < 10) →
      l₁.map Nat.digitChar = l₂.map Nat.digitChar → l₁ = l₂ := by
  intro l₁
  induction l₁ with
  | nil => intro l₂ _ _ h; cases l₂ <;> simp_all
  | cons a t ih =>
    intro l₂ h₁ h₂ h
    cases l₂ with
    | nil => simp at h
    | cons b t₂ =>
      simp only [List.map_cons, List.cons.injEq] at h
      have ha := digitChar_inj_lt a (h₁ a (by simp)) b (h₂ b (by simp)) h.1
      subst ha
      have := ih t₂ (fun d hd => h₁ d (by simp [hd])) (fun d hd => h₂ d (by simp [hd])) h.2
      simp [this]

theorem natToDec_inj {m n : Nat} (hm : 0 < m) (hn : 0 < n)
    (h : natToDec m = natToDec n) : m = n := by
  unfold natToDec at h
  rw [if_neg (by omega), if_neg (by omega)] at h
  have hlist : (decDigits m).reverse.map Nat.digitChar
      = (decDigits n).reverse.map Nat.digitChar := by
    injection h
  have hrev : (decDigits m).reverse = (decDigits n).reverse :=
    map_digitChar_inj _ _
      (fun d hd => decDigitsAux_lt m m d (List.mem_reverse.mp hd))
      (fun d hd => decDigitsAux_lt n n d (List.mem_reverse.mp hd)) hlist
  exact decDigits_inj (List.reverse_inj.mp hrev)

/-- Pigeonhole: among the decimal strings of `1 .. keys.length + 1`, at least
one is not a member of `keys`. -/
theorem exists_natToDec_not_mem (keys : List String) :
    ∃ m, 0 < m ∧ m ≤ keys.length + 1 ∧ natToDec m ∉ keys := by
  by_contra hc
  push_neg at hc
  have hsub : ((List.range (keys.length + 1)).map fun i => natToDec (i + 1)) ⊆ keys := by
    intro s hs
    simp only [List.mem_map, List.mem_range] at hs
    obtain ⟨i, hi, rfl⟩ := hs
    exact hc (i + 1) (Nat.succ_pos i) (by omega)
  have hnd : ((List.range (keys.length + 1)).map fun i => natToDec (i + 1)).Nodup := by
    refine List.Nodup.map_on ?_ (List.nodup_range _)
    intro x _ y _ hxy
    have := natToDec_inj (Nat.succ_pos x) (Nat.succ_pos y) hxy
    omega
  have hle := (List.subperm_of_subset hnd hsub).length_le
  simp at hle

end DecimalStrings

section BitOps

/-- Python `a & ~mask` on nonnegative ints: clears the bits of `mask` in `a`.
Over naturals this equals `a - (a &&& mask)` because the set bits of
`a &&& mask` are a subset of the set bits of `a`, so the subtraction removes
exactly those bits with no borrowing. -/
def andNot (a mask : Nat) : Nat := a - (a &&& mask)

theorem land_lor_self (x c : Nat) : (x ||| c) &&& c = c := by
  refine Nat.eq_of_testBit_eq fun i => ?_
  rw [Nat.testBit_land, Nat.testBit_lor]
  cases Nat.testBit x i <;> cases Nat.testBit c i <;> rfl

theorem land_lor_self_ne_zero (x c : Nat) (hc : c ≠ 0) : (x ||| c) &&& c ≠ 0 := by
  rw [land_lor_self]; exact hc

end BitOps

section DataModel

/-- Substatus enum of models.py. -/
inductive Substatus
  | Offline | Online | Busy | Idle | BRB | Away | OnPhone | OutToLunch
  | Invisible | NotAtHome | NotAtDesk | NotInOffice | OnVacation | SteppedOut
deriving DecidableEq, Repr

/-- List bit flags of models.py `Lst`. -/
def Lst.FL : Nat := 0x01

def Lst.AL : Nat := 0x02

def Lst.BL : Nat := 0x04

def Lst.RL : Nat := 0x08

def Lst.PL : Nat := 0x10

/-- models.py `UserStatus`.  `message` models the `_message` slot behind the
read-only `message` property, `persistent` the `_persistent` slot; `media`
is opaque (`Optional[Any]`). -/
structure UserStatus where
  substatus : Substatus
  name : Option String
  message : String
  persistent : Bool
  media : Option String
deriving DecidableEq, Repr

/-- models.py `UserStatus.__init__(name, message = '')`. -/
def UserStatus.init (name : Option String) (message : String) : UserStatus :=
  { substatus := .Offline, name := name, message := message, persistent := true, media := none }

/-- models.py `UserStatus.set_status_message(message)` with the default
`persistent = True`. -/
def UserStatus.set_status_message (s : UserStatus) (message : String) : UserStatus :=
  { s with message := message, persistent := true }

/-- notification.py constructs groups as `Group(id, name)`: a short decimal
id and a display name. -/
structure Group where
  id : String
  name : String
deriving DecidableEq, Repr

/-- Directed roster edge.  `head` is a shared `User` object in the source;
here `headUuid` indexes the user store of `ServerState`.  `groups` is the
set of group ids (notification.py `ctc.groups`). -/
structure Contact where
  headUuid : String
  groups : List String
  lists : Nat
  status : UserStatus
deriving DecidableEq, Repr

/-- `UserDetail` with the attribute shape notification.py uses: `groups` is
a dict keyed by group id, `contacts` a dict keyed by the contact's uuid.
`settings`, `capabilities` and `msnobj` are written by `me_update`
(models.py's `UserDetail` declares no such slots, which is part of the
evidence for claim C6). -/
structure UserDetail where
  groups : List (String × Group)
  contacts : List (String × Contact)
  settings : List (String × String)
  capabilities : Option String
  msnobj : Option String
deriving DecidableEq, Repr

/-- models.py `User` (the fields the presence core reads). -/
structure User where
  uuid : String
  email : String
  verified : Bool
  status : UserStatus
  detail : Option UserDetail
  settings : List (String × String)
deriving DecidableEq, Repr

/-- Modelled from the spec: a live session (spec section 4.3); the session
class itself lives outside src/.  `sid` stands for Python object identity,
`userUuid` for the bound `sess.user`. -/
structure Session where
  sid : Nat
  userUuid : String
deriving DecidableEq, Repr

/-- Modelled from the spec: the event kinds dispatched to
`Session.send_event` (spec section 6) that the embedded operations emit;
`AddedToList(lst, user)` carries the adding user by uuid. -/
inductive Event
  | presenceNotification (ctc : Contact)
  | addedToList (lst : Nat) (adderUuid : String)
deriving DecidableEq, Repr

/-- Modelled from the spec: the error kinds of core/error.py (spec
section 7), plus the Python runtime errors the embedded code can raise:
`assertFailed` for a failed assert, `attrOnNone` for attribute access on
None, `unboundName` for a NameError, `fileMissing` for FileNotFoundError,
`staleSession` for dereferencing a session whose user is not in the store
(unreachable for sessions produced by `_login_common`). -/
inductive Err
  | userDoesNotExist | contactDoesNotExist | contactAlreadyOnList | contactNotOnList
  | groupDoesNotExist | groupNameTooLong | cannotRemoveSpecialGroup
  | assertFailed | attrOnNone | unboundName | fileMissing | staleSession
deriving DecidableEq, Repr

/-- The mutable heap of the notification server: the `user_by_uuid` store of
shared `User` objects (each holding its optional `UserDetail`), the
persistent details behind `UserService.get_detail`, and the session registry
`_NSSessCollection`. -/
structure ServerState where
  users : List (String × User)
  dbDetails : List (String × UserDetail)
  sessions : List Session
deriving DecidableEq, Repr

end DataModel

section ModelFunctions

/-- models.py `_is_blocking(blocker, blockee)`.  The source asserts
`blocker.detail is not None`; the `none` branch is unreachable at every
call site and yields `false` as a junk value. -/
def _is_blocking (blocker blockee : User) : Bool :=
  match blocker.detail with
  | none => false
  | some detail =>
    let lists := match lookupk detail.contacts blockee.uuid with
      | some contact => contact.lists
      | none => 0
    if lists &&& Lst.BL ≠ 0 then true
    else if lists &&& Lst.AL ≠ 0 then false
    else ((lookupk blocker.settings "BLP").getD "AL") == "BL"

/-- models.py `Contact.compute_visible_status(self, to_user)`; `head` is the
shared `self.head` object, resolved from the user store by callers. -/
def Contact.compute_visible_status (c : Contact) (head to_user : User) : Contact :=
  if head.detail.isNone || _is_blocking head to_user then
    { c with status := { c.status with substatus := Substatus.Offline } }
  else
    let true_status := head.status
    let s1 := { c.status with substatus := true_status.substatus, name := true_status.name }
    let s2 := s1.set_status_message true_status.message
    { c with status := { s2 with media := true_status.media } }

/-- notification.py `MAX_GROUP_NAME_LENGTH`. -/
def MAX_GROUP_NAME_LENGTH : Nat := 61

def getUser (st : ServerState) (uuid : String) : Option User := lookupk st.users uuid

/-- Store back a shared `User` object after an in-place mutation. -/
def setUser (st : ServerState) (u : User) : ServerState :=
  { st with users := setk st.users u.uuid u }

/-- notification.py `_load_detail`: the user's attached detail when present
(a `UserDetail` object is always truthy), else `UserService.get_detail`. -/
def _load_detail (st : ServerState) (user : User) : Option UserDetail :=
  match user.detail with
  | some d => some d
  | none => lookupk st.dbDetails user.uuid

/-- Store back the detail object mutated in place by `_add_to_list` /
`_remove_from_list`: when it is the attached `user.detail`, the shared user
object sees the update; when it was loaded from the store, `_mark_modified`
queues it in the dirty set and the persistence pump flushes it back (the
queue-and-flush is modelled as a direct store update). -/
def storeDetail (st : ServerState) (user : User) (d : UserDetail) : ServerState :=
  match user.detail with
  | some _ => setUser st { user with detail := some d }
  | none => { st with dbDetails := setk st.dbDetails user.uuid d }

/-- notification.py `_NSSessCollection.get_ncs_by_user`. -/
def sessionsOfUser (st : ServerState) (uuid : String) : List Session :=
  st.sessions.filter fun s => s.userUuid == uuid

/-- One owner's pass of `_sync_contact_statuses`: recompute every contact's
visible status against the pre-pass user store `st` (sound because the pass
only writes contact statuses, which `compute_visible_status` never reads). -/
def syncUser (st : ServerState) (u : User) : User :=
  match u.detail with
  | none => u
  | some d =>
    { u with detail := some { d with contacts := d.contacts.map fun q =>
        (q.1, match getUser st q.2.headUuid with
              | some head => q.2.compute_visible_status head u
              | none => q.2) } }

/-- notification.py `_sync_contact_statuses`. -/
def _sync_contact_statuses (st : ServerState) : ServerState :=
  { st with users := st.users.map fun p => (p.1, syncUser st p.2) }

/-- notification.py `_generic_notify`: the (receiver, event) pairs
dispatched, in registry order.  Only the acting session itself is skipped. -/
def _generic_notify (st : ServerState) (sess : Session) : List (Session × Event) :=
  match getUser st sess.userUuid with
  | none => []
  | some user =>
    st.sessions.filterMap fun sess_other =>
      if sess_other = sess then none
      else
        match getUser st sess_other.userUuid with
        | none => none
        | some user_other =>
          match user_other.detail with
          | none => none
          | some d =>
            match lookupk d.contacts user.uuid with
            | none => none
            | some ctc => some (sess_other, Event.presenceNotification ctc)

/-- notification.py `_notify_reverse_add`: every session of the added user
except the acting session receives `AddedToListEvent(RL, user_adder)`. -/
def _notify_reverse_add (st : ServerState) (sess : Session) (userAddedUuid : String) :
    List (Session × Event) :=
  (sessionsOfUser st userAddedUuid).filterMap fun sess_added =>
    if sess_added = sess then none
    else some (sess_added, Event.addedToList Lst.RL sess.userUuid)

/-- notification.py `_add_to_list(user, ctc_head, lst, name)`. -/
def _add_to_list (st : ServerState) (userUuid ctcHeadUuid : String) (lst : Nat)
    (name : Option String) : Except Err (Contact × ServerState) :=
  match getUser st userUuid with
  | none => .error .staleSession
  | some user =>
    match _load_detail st user with
    | none => .error .attrOnNone
    | some detail =>
      let ctc0 := (lookupk detail.contacts ctcHeadUuid).getD
        { headUuid := ctcHeadUuid, groups := [], lists := 0, status := UserStatus.init name "" }
      let ctc1 :=
        if ctc0.status.name = none then { ctc0 with status := { ctc0.status with name := name } }
        else ctc0
      let ctc := { ctc1 with lists := ctc1.lists ||| lst }
      .ok (ctc, storeDetail st user { detail with contacts := setk detail.contacts ctcHeadUuid ctc })

/-- notification.py `_remove_from_list(user, ctc_head, lst)`. -/
def _remove_from_list (st : ServerState) (userUuid ctcHeadUuid : String) (lst : Nat) :
    Except Err ServerState :=
  match getUser st userUuid with
  | none => .error .staleSession
  | some user =>
    match _load_detail st user with
    | none => .error .attrOnNone
    | some detail =>
      match lookupk detail.contacts ctcHeadUuid with
      | none => .ok st
      | some ctc0 =>
        let ctc := { ctc0 with lists := andNot ctc0.lists lst }
        let contacts :=
          if ctc.lists = 0 then delk detail.contacts ctcHeadUuid
          else setk detail.contacts ctcHeadUuid ctc
        .ok (storeDetail st user { detail with contacts := contacts })

/-- notification.py `me_contact_add`: returns the pair `(ctc, ctc_head)`
(the contact by value, the head by uuid), the post-call state, and the
events dispatched (`AddedToList` before `PresenceNotification`). -/
def me_contact_add (st : ServerState) (sess : Session) (contact_uuid : String) (lst : Nat)
    (name : Option String) :
    Except Err (Contact × String × ServerState × List (Session × Event)) :=
  match getUser st contact_uuid with
  | none => .error .userDoesNotExist
  | some _ctc_head =>
    match getUser st sess.userUuid with
    | none => .error .staleSession
    | some user => do
      let r ← _add_to_list st user.uuid contact_uuid lst name
      let st1 := r.2
      let (st2, evs1) ←
        if lst = Lst.FL then do
          let r2 ← _add_to_list st1 contact_uuid user.uuid Lst.RL user.status.name
          pure (r2.2, _notify_reverse_add r2.2 sess contact_uuid)
        else
          pure (st1, ([] : List (Session × Event)))
      let st3 := _sync_contact_statuses st2
      let evs2 := _generic_notify st3 sess
      .ok (r.1, contact_uuid, st3, evs1 ++ evs2)

/-- notification.py `me_contact_remove`. -/
def me_contact_remove (st : ServerState) (sess : Session) (contact_uuid : String) (lst : Nat) :
    Except Err ServerState :=
  match getUser st sess.userUuid with
  | none => .error .staleSession
  | some user =>
    match user.detail with
    | none => .error .attrOnNone
    | some detail =>
      match lookupk detail.contacts contact_uuid with
      | none => .error .contactDoesNotExist
      | some ctc =>
        if lst = Lst.FL then do
          let st1 ← _remove_from_list st user.uuid ctc.headUuid Lst.FL
          let st2 ← _remove_from_list st1 ctc.headUuid user.uuid Lst.RL
          .ok (_sync_contact_statuses st2)
        else if lst = Lst.RL then .error .assertFailed
        else
          let ctc' := { ctc with lists := andNot ctc.lists lst }
          let st1 := setUser st
            { user with detail := some { detail with contacts := setk detail.contacts contact_uuid ctc' } }
          .ok (_sync_contact_statuses st1)

/-- The `fields` dict accepted by notification.py `me_update`; an outer
`some` means the key is present in the dict. -/
structure UpdateFields where
  message : Option String
  media : Option (Option String)
  name : Option (Option String)
  gtc : Option String
  blp : Option String
  substatus : Option Substatus
  capabilities : Option String
  msnobj : Option String
deriving DecidableEq, Repr

def UpdateFields.empty : UpdateFields := ⟨none, none, none, none, none, none, none, none⟩

/-- Patch `user.detail` under `f`, raising AttributeError when `detail` is
None. -/
def patchDetail (u : User) (f : UserDetail → UserDetail) : Except Err User :=
  match u.detail with
  | none => .error .attrOnNone
  | some d => .ok { u with detail := some (f d) }

/-- notification.py `me_update(sess, fields)`.  Note the source stores the
`blp` field into `user.detail.settings['blp']` (lower case, on the detail)
while models.py `_is_blocking` reads `user.settings['BLP']`. -/
def me_update (st : ServerState) (sess : Session) (fields : UpdateFields) :
    Except Err (ServerState × List (Session × Event)) :=
  match getUser st sess.userUuid with
  | none => .error .staleSession
  | some user => do
    let user := match fields.message with
      | some m => { user with status := { user.status with message := m } }
      | none => user
    let user := match fields.media with
      | some m => { user with status := { user.status with media := m } }
      | none => user
    let user := match fields.name with
      | some n => { user with status := { user.status with name := n } }
      | none => user
    let user ← match fields.gtc with
      | some v => patchDetail user fun d => { d with settings := setk d.settings "gtc" v }
      | none => pure user
    let user ← match fields.blp with
      | some v => patchDetail user fun d => { d with settings := setk d.settings "blp" v }
      | none => pure user
    let user := match fields.substatus with
      | some s => { user with status := { user.status with substatus := s } }
      | none => user
    let user ← match fields.capabilities with
      | some v => patchDetail user fun d => { d with capabilities := some v }
      | none => pure user
    let user ← match fields.msnobj with
      | some v => patchDetail user fun d => { d with msnobj := some v }
      | none => pure user
    let st1 := setUser st user
    let st2 := _sync_contact_statuses st1
    .ok (st2, _generic_notify st2 sess)

/-- The `while s in detail.groups` loop of notification.py `_gen_group_id`,
with explicit fuel. -/
def genGroupIdAux (groups : List (String × Group)) : Nat → Nat → String
  | 0, id => natToDec id
  | fuel + 1, id =>
    if (lookupk groups (natToDec id)).isSome then genGroupIdAux groups fuel (id + 1)
    else natToDec id

/-- notification.py `_gen_group_id`: starting from 1, the first decimal id
not present as a key of `detail.groups`; `groups.length + 1` steps of fuel
are enough by pigeonhole. -/
def _gen_group_id (groups : List (String × Group)) : String :=
  genGroupIdAux groups (groups.length + 1) 1

/-- notification.py `me_group_add`. -/
def me_group_add (st : ServerState) (sess : Session) (name : String) :
    Except Err (Group × ServerState) :=
  if name.length > MAX_GROUP_NAME_LENGTH then .error .groupNameTooLong
  else
    match getUser st sess.userUuid with
    | none => .error .staleSession
    | some user =>
      match user.detail with
      | none => .error .attrOnNone
      | some detail =>
        let group : Group := { id := _gen_group_id detail.groups, name := name }
        .ok (group, setUser st
          { user with detail := some { detail with groups := setk detail.groups group.id group } })

/-- notification.py `me_group_edit`: after the group is found, the source
reads the unbound local `name` (only `new_name` is in scope) in
`if len(name) > MAX_GROUP_NAME_LENGTH`, raising NameError before any
mutation, whatever `new_name` is. -/
def me_group_edit (st : ServerState) (sess : Session) (group_id : String) (new_name : String) :
    Except Err ServerState :=
  match getUser st sess.userUuid with
  | none => .error .staleSession
  | some user =>
    match user.detail with
    | none => .error .attrOnNone
    | some detail =>
      match lookupk detail.groups group_id with
      | none => .error .groupDoesNotExist
      | some _g => .error .unboundName

/-- models.py `OIM` payload (dates and headers as opaque strings). -/
structure OIM where
  uuid : String
  run_id : String
  from_email : String
  from_friendly : String
  to_email : String
  sent : String
  message : String
  utf8 : Bool
deriving DecidableEq, Repr

/-- The OIM file store: `storage/oim/<recipient_uuid>/<oim_uuid>` mapped to
raw file text. -/
abbrev OimStore := List ((String × String) × String)

/-- user.py `UserService.get_oim_single` (the `mark_read` flag only matters
in dead code and is omitted).  The source returns `None` when
`oim_path.is_file()` holds; when the path is not a file, the subsequent
`oim_path.read_text()` raises (FileNotFoundError / IsADirectoryError), so
the JSON-parsing tail of the function is unreachable and not modelled. -/
def get_oim_single (store : OimStore) (userUuid oimUuid : String) : Except Err (Option OIM) :=
  if (lookupk store (userUuid, oimUuid)).isSome then .ok none
  else .error .fileMissing

end ModelFunctions

section Accessors

/-- The contact entry of owner `a` for uuid `b`, through the attached
detail of the shared user object. -/
def ctcOf (st : ServerState) (a b : String) : Option Contact :=
  (getUser st a).bind fun u => u.detail.bind fun d => lookupk d.contacts b

/-- The events of a roster-mutation result (empty on error). -/
def eventsOfAdd (r : Except Err (Contact × String × ServerState × List (Session × Event))) :
    List (Session × Event) :=
  match r with
  | .ok (_, _, _, evs) => evs
  | .error _ => []

/-- The returned `Group` of a `me_group_add` result. -/
def groupOfAdd (r : Except Err (Group × ServerState)) : Option Group :=
  r.toOption.map Prod.fst

/-- Evaluate `_is_blocking` against the post-state of a `me_update` call. -/
def blockingAfterUpdate (r : Except Err (ServerState × List (Session × Event)))
    (blockerUuid : String) (blockee : User) : Option Bool :=
  r.toOption.bind fun p => (getUser p.1 blockerUuid).map fun u => _is_blocking u blockee

/-- The value stored under `'blp'` in `detail.settings` in the post-state of
a `me_update` call. -/
def detailBlpAfterUpdate (r : Except Err (ServerState × List (Session × Event)))
    (userUuid : String) : Option (Option String) :=
  r.toOption.bind fun p => (getUser p.1 userUuid).bind fun u =>
    u.detail.map fun d => lookupk d.settings "blp"

end Accessors

section StepLemmas

theorem compute_visible_status_lists (c : Contact) (head to_user : User) :
    (c.compute_visible_status head to_user).lists = c.lists := by
  unfold Contact.compute_visible_status
  split <;> rfl

theorem compute_visible_status_headUuid (c : Contact) (head to_user : User) :
    (c.compute_visible_status head to_user).headUuid = c.headUuid := by
  unfold Contact.compute_visible_status
  split <;> rfl

theorem getUser_sync (st : ServerState) (a : String) :
    getUser (_sync_contact_statuses st) a = (getUser st a).map (syncUser st) := by
  unfold getUser _sync_contact_statuses
  exact lookupk_mapv (syncUser st) st.users a

theorem sessions_sync (st : ServerState) : (_sync_contact_statuses st).sessions = st.sessions := rfl

theorem ctcOf_sync (st : ServerState) (a b : String) :
    ctcOf (_sync_contact_statuses st) a b =
      match getUser st a with
      | none => none
      | some u =>
        (ctcOf st a b).map fun c =>
          match getUser st c.headUuid with
          | some head => c.compute_visible_status head u
          | none => c := by
  cases hu : getUser st a with
  | none =>
    unfold ctcOf
    rw [getUser_sync, hu]
    rfl
  | some u =>
    cases hd : u.detail with
    | none => simp [ctcOf, getUser_sync, hu, syncUser, hd]
    | some d =>
      simp [ctcOf, getUser_sync, hu, syncUser, hd]
      exact lookupk_mapv (fun c => match getUser st c.headUuid with
        | some head => c.compute_visible_status head u
        | none => c) d.contacts b

theorem ctcOf_sync_lists (st : ServerState) (a b : String) :
    (ctcOf (_sync_contact_statuses st) a b).map Contact.lists
      = (ctcOf st a b).map Contact.lists := by
  rw [ctcOf_sync]
  cases hu : getUser st a with
  | none =>
    unfold ctcOf
    rw [hu]
    rfl
  | some u =>
    cases hc : ctcOf st a b with
    | none => rfl
    | some c =>
      simp only [Option.map_some]
      cases hh : getUser st c.headUuid <;>
        simp [hh, compute_visible_status_lists]

theorem ctcOf_sync_none (st : ServerState) (a b : String) :
    ctcOf (_sync_contact_statuses st) a b = none ↔ ctcOf st a b = none := by
  rw [ctcOf_sync]
  cases hu : getUser st a with
  | none =>
    unfold ctcOf
    rw [hu]
    simp
  | some u =>
    cases hc : ctcOf st a b <;> simp

end StepLemmas

section CallLemmas

/-- The contact value produced by `_add_to_list` for owner detail `dA`. -/
def addCtcResult (dA : UserDetail) (b : String) (lst : Nat) (name : Option String) : Contact :=
  let ctc0 := (lookupk dA.contacts b).getD
    { headUuid := b, groups := [], lists := 0, status := UserStatus.init name "" }
  let ctc1 :=
    if ctc0.status.name = none then { ctc0 with status := { ctc0.status with name := name } }
    else ctc0
  { ctc1 with lists := ctc1.lists ||| lst }

theorem addCtcResult_lists (dA : UserDetail) (b : String) (lst : Nat) (name : Option String) :
    (addCtcResult dA b lst name).lists =
      (match lookupk dA.contacts b with
        | some c => c.lists
        | none => 0) ||| lst := by
  unfold addCtcResult
  cases hlk : lookupk dA.contacts b <;> simp only [Option.getD] <;> split <;> rfl

theorem addCtcResult_bit (dA : UserDetail) (b : String) (lst : Nat) (name : Option String)
    (h : lst ≠ 0) : (addCtcResult dA b lst name).lists &&& lst ≠ 0 := by
  rw [addCtcResult_lists]
  exact land_lor_self_ne_zero _ lst h

/-- The state after storing a replacement contacts map into the attached
detail of the shared user object registered at `a`. -/
def withContacts (st : ServerState) (a : String) (A : User) (dA : UserDetail)
    (contacts : List (String × Contact)) : ServerState :=
  { st with users := setk st.users a { A with detail := some { dA with contacts := contacts } } }

/-- `_add_to_list` on a live user with attached detail. -/
theorem add_to_list_eq (st : ServerState) (a b : String) (lst : Nat) (name : Option String)
    (A : User) (dA : UserDetail)
    (ha : getUser st a = some A) (hd : A.detail = some dA) (hau : A.uuid = a) :
    _add_to_list st a b lst name =
      .ok (addCtcResult dA b lst name,
        withContacts st a A dA (setk dA.contacts b (addCtcResult dA b lst name))) := by
  unfold _add_to_list _load_detail storeDetail setUser addCtcResult withContacts
  simp only [ha, hd]
  rw [show ({ A with detail := some { dA with contacts := setk dA.contacts b (addCtcResult dA b lst name) } } : User).uuid = a from hau]

/-- `_remove_from_list` on a live user with attached detail. -/
theorem remove_from_list_eq (st : ServerState) (a b : String) (lst : Nat)
    (A : User) (dA : UserDetail)
    (ha : getUser st a = some A) (hd : A.detail = some dA) (hau : A.uuid = a) :
    _remove_from_list st a b lst =
      .ok (match lookupk dA.contacts b with
        | none => st
        | some c0 =>
          withContacts st a A dA
            (if andNot c0.lists lst = 0 then delk dA.contacts b
             else setk dA.contacts b { c0 with lists := andNot c0.lists lst })) := by
  unfold _remove_from_list _load_detail storeDetail setUser withContacts
  simp only [ha, hd]
  cases hc : lookupk dA.contacts b with
  | none => rfl
  | some c0 =>
    simp only [hau]

theorem except_bind_ok {eps alpha beta : Type} (a : alpha) (f : alpha → Except eps beta) :
    (Except.ok (ε := eps) a >>= f) = f a := rfl

theorem except_pure_bind {eps alpha beta : Type} (a : alpha) (f : alpha → Except eps beta) :
    ((pure a : Except eps alpha) >>= f) = f a := rfl

theorem exists_of_map_lists_eq {o : Option Contact} {l : Nat}
    (h : o.map Contact.lists = some l) : ∃ c, o = some c ∧ c.lists = l := by
  cases o with
  | none => simp at h
  | some c => exact ⟨c, rfl, by simpa using h⟩

/-- The id-search loop returns the least free decimal id at or above the
start, provided a free id exists within the fuel window. -/
theorem genGroupIdAux_spec (groups : List (String × Group)) :
    ∀ fuel id, (∃ i, id ≤ i ∧ i < id + fuel ∧ lookupk groups (natToDec i) = none) →
      ∃ m, id ≤ m ∧ lookupk groups (natToDec m) = none ∧
        (∀ j, id ≤ j → j < m → (lookupk groups (natToDec j)).isSome) ∧
        genGroupIdAux groups fuel id = natToDec m := by
  intro fuel
  induction fuel with
  | zero =>
    rintro id ⟨i, h1, h2, -⟩
    omega
  | succ fuel ih =>
    rintro id ⟨i, h1, h2, h3⟩
    by_cases hk : (lookupk groups (natToDec id)).isSome
    · have hne : i ≠ id := by
        intro he
        rw [he] at h3
        rw [h3] at hk
        simp at hk
      obtain ⟨m, hm1, hm2, hm3, hm4⟩ := ih (id + 1) ⟨i, by omega, by omega, h3⟩
      refine ⟨m, by omega, hm2, ?_, ?_⟩
      · intro j hj1 hj2
        by_cases hje : j = id
        · exact hje ▸ hk
        · exact hm3 j (by omega) hj2
      · simp only [genGroupIdAux]
        rw [if_pos hk]
        exact hm4
    · refine ⟨id, le_rfl, ?_, by omega, ?_⟩
      · cases hkk : lookupk groups (natToDec id) with
        | none => rfl
        | some g =>
          rw [hkk] at hk
          simp at hk
      · simp only [genGroupIdAux]
        rw [if_neg hk]

/-- notification.py `_gen_group_id` returns the decimal string of the least
positive integer not in use as a key of `groups`. -/
theorem gen_group_id_spec (groups : List (String × Group)) :
    ∃ m, 0 < m ∧ lookupk groups (natToDec m) = none ∧
      (∀ j, 0 < j → j < m → (lookupk groups (natToDec j)).isSome) ∧
      _gen_group_id groups = natToDec m := by
  obtain ⟨m, hm1, hm2, hm3⟩ := exists_natToDec_not_mem (keysOf groups)
  have hkl : (keysOf groups).length = groups.length := by
    simp [keysOf]
  obtain ⟨m', h1, h2, h3, h4⟩ := genGroupIdAux_spec groups (groups.length + 1) 1
    ⟨m, hm1, by omega, (lookupk_eq_none_iff _ _).mpr hm3⟩
  exact ⟨m', h1, h2, fun j hj1 hj2 => h3 j hj1 hj2, h4⟩

theorem getUser_withContacts_self (st : ServerState) (a : String) (A : User)
    (dA : UserDetail) (cts : List (String × Contact)) :
    getUser (withContacts st a A dA cts) a
      = some { A with detail := some { dA with contacts := cts } } := by
  unfold getUser withContacts
  exact lookupk_setk_self st.users a _

theorem getUser_withContacts_ne (st : ServerState) (a a' : String) (A : User)
    (dA : UserDetail) (cts : List (String × Contact)) (h : a' ≠ a) :
    getUser (withContacts st a A dA cts) a' = getUser st a' := by
  unfold getUser withContacts
  exact lookupk_setk_ne st.users a a' _ h

theorem ctcOf_withContacts_self (st : ServerState) (a b : String) (A : User)
    (dA : UserDetail) (cts : List (String × Contact)) :
    ctcOf (withContacts st a A dA cts) a b = lookupk cts b := by
  unfold ctcOf
  rw [getUser_withContacts_self]
  rfl

theorem ctcOf_withContacts_ne (st : ServerState) (a a' b : String) (A : User)
    (dA : UserDetail) (cts : List (String × Contact)) (h : a' ≠ a) :
    ctcOf (withContacts st a A dA cts) a' b = ctcOf st a' b := by
  unfold ctcOf
  rw [getUser_withContacts_ne st a a' A dA cts h]

theorem sessions_withContacts (st : ServerState) (a : String) (A : User)
    (dA : UserDetail) (cts : List (String × Contact)) :
    (withContacts st a A dA cts).sessions = st.sessions := rfl

theorem setUser_eq_withContacts (st : ServerState) (A : User) (dA : UserDetail)
    (cts : List (String × Contact)) (a : String) (hau : A.uuid = a) :
    setUser st { A with detail := some { dA with contacts := cts } }
      = withContacts st a A dA cts := by
  unfold setUser withContacts
  rw [show ({ A with detail := some { dA with contacts := cts } } : User).uuid = a from hau]

end CallLemmas

section Fixtures

def emptyDetail : UserDetail :=
  { groups := [], contacts := [], settings := [], capabilities := none, msnobj := none }

def mkUser (uuid email name : String) (detail : Option UserDetail) : User :=
  { uuid := uuid, email := email, verified := true,
    status := UserStatus.init (some name) "", detail := detail, settings := [] }

def exAlice : User := mkUser "a" "alice@x" "Alice" (some emptyDetail)

def exBob : User := mkUser "b" "bob@x" "Bob" (some emptyDetail)

def exOfflineCarol : User := mkUser "c" "carol@x" "Carol" none

def exCtcBob : Contact :=
  { headUuid := "b", groups := [], lists := Lst.FL, status := UserStatus.init (some "Bob") "" }

def exCtcCarol : Contact :=
  { headUuid := "c", groups := [], lists := Lst.FL, status := UserStatus.init (some "Carol") "" }

def exBlockerDetail : UserDetail :=
  { emptyDetail with contacts :=
      [("b", { headUuid := "b", groups := [], lists := Lst.BL,
               status := UserStatus.init (some "Bob") "" })] }

def exBlocker : User := mkUser "e" "eve@x" "Eve" (some exBlockerDetail)

def exGroupsDetail : UserDetail :=
  { emptyDetail with groups := [("1", { id := "1", name := "Friends" })] }

def exGrpUser : User := mkUser "g" "greta@x" "Greta" (some exGroupsDetail)

def exStG : ServerState := { users := [("g", exGrpUser)], dbDetails := [], sessions := [⟨1, "g"⟩] }

def exSessG : Session := ⟨1, "g"⟩

def exStAB : ServerState :=
  { users := [("a", exAlice), ("b", exBob)], dbDetails := [], sessions := [⟨1, "a"⟩, ⟨2, "b"⟩] }

def exSessA : Session := ⟨1, "a"⟩

def exBlpFields : UpdateFields := { UpdateFields.empty with blp := some "BL" }

def exSelfCtc : Contact :=
  { headUuid := "a", groups := [], lists := Lst.FL ||| Lst.RL,
    status := UserStatus.init (some "Alice") "" }

def exSelfDetail : UserDetail := { emptyDetail with contacts := [("a", exSelfCtc)] }

def exSelfAlice : User := mkUser "a" "alice@x" "Alice" (some exSelfDetail)

def exStSelf : ServerState :=
  { users := [("a", exSelfAlice)], dbDetails := [], sessions := [⟨1, "a"⟩, ⟨2, "a"⟩] }

def exCtcAliceForBob : Contact :=
  { headUuid := "a", groups := [], lists := Lst.FL, status := UserStatus.init (some "Alice") "" }

def exBobDetailA : UserDetail := { emptyDetail with contacts := [("a", exCtcAliceForBob)] }

def exBobN : User := mkUser "b" "bob@x" "Bob" (some exBobDetailA)

def exStN : ServerState :=
  { users := [("a", exAlice), ("b", exBobN)], dbDetails := [], sessions := [⟨1, "a"⟩, ⟨2, "b"⟩] }

def exAlCtc : Contact :=
  { headUuid := "b", groups := [], lists := Lst.AL, status := UserStatus.init (some "Bob") "" }

def exAlDetail : UserDetail := { emptyDetail with contacts := [("b", exAlCtc)] }

def exAlUser : User := mkUser "a" "alice@x" "Alice" (some exAlDetail)

def exStAL : ServerState :=
  { users := [("a", exAlUser), ("b", exBob)], dbDetails := [], sessions := [⟨1, "a"⟩] }

def exStOne : ServerState :=
  { users := [("a", exAlice)], dbDetails := [], sessions := [⟨1, "a"⟩] }

end Fixtures

/-- Claim C1: for a contact `c` owned by observer `O` with head user `H`,
after `compute_visible_status(c, O)`: if `H.detail` is nil or
`is_blocking(H, O)` holds then `c.status.substatus` is Offline; otherwise
`c.status.substatus`, `.name`, `.message` and `.media` equal the
corresponding fields of `H.status`. -/
theorem claim_C1_compute_visible_status (c : Contact) (H O : User) :
    ((H.detail = none ∨ _is_blocking H O = true) →
      (c.compute_visible_status H O).status.substatus = Substatus.Offline) ∧
    (H.detail ≠ none → _is_blocking H O = false →
      ((c.compute_visible_status H O).status.substatus = H.status.substatus ∧
       (c.compute_visible_status H O).status.name = H.status.name ∧
       (c.compute_visible_status H O).status.message = H.status.message ∧
       (c.compute_visible_status H O).status.media = H.status.media)) := by
  constructor
  · intro h
    have hc : (H.detail.isNone || _is_blocking H O) = true := by
      rcases h with h | h
      · simp [h]
      · simp [h]
    unfold Contact.compute_visible_status
    rw [hc]
    rfl
  · intro h1 h2
    have hc : (H.detail.isNone || _is_blocking H O) = false := by
      cases hd : H.detail
      · exact absurd hd h1
      · simp [h2]
    unfold Contact.compute_visible_status
    rw [hc]
    simp [UserStatus.set_status_message]

/-- Witness for C1 at concrete inputs: an offline head is seen Offline, an
online non-blocking head's name is copied. -/
theorem claim_C1_witness :
    (exCtcCarol.compute_visible_status exOfflineCarol exAlice).status.substatus
        = Substatus.Offline ∧
    (exCtcBob.compute_visible_status exBob exAlice).status.name = exBob.status.name :=
  ⟨(claim_C1_compute_visible_status exCtcCarol exOfflineCarol exAlice).1 (Or.inl rfl),
   ((claim_C1_compute_visible_status exCtcBob exBob exAlice).2
      (by decide) (by decide)).2.1⟩

/-- Claim C2: for a blocker `B` with non-nil detail and blockee `E`, with
`l` the lists of `B`'s entry for `E` (0 if absent): `is_blocking(B, E)` is
true when the BL bit is set, false when the AL bit (and not BL) is set, and
otherwise true iff `B.settings['BLP']` (defaulted to `'AL'`) equals `'BL'`. -/
theorem claim_C2_is_blocking (B E : User) (dB : UserDetail) (h : B.detail = some dB)
    (l : Nat)
    (hl : l = match lookupk dB.contacts E.uuid with
      | some contact => contact.lists
      | none => 0) :
    (l &&& Lst.BL ≠ 0 → _is_blocking B E = true) ∧
    (l &&& Lst.BL = 0 → l &&& Lst.AL ≠ 0 → _is_blocking B E = false) ∧
    (l &&& Lst.BL = 0 → l &&& Lst.AL = 0 →
      (_is_blocking B E = true ↔ (lookupk B.settings "BLP").getD "AL" = "BL")) := by
  have hb : _is_blocking B E =
      (if l &&& Lst.BL ≠ 0 then true
       else if l &&& Lst.AL ≠ 0 then false
       else ((lookupk B.settings "BLP").getD "AL") == "BL") := by
    unfold _is_blocking
    rw [h]
    subst hl
    rfl
  rw [hb]
  refine ⟨?_, ?_, ?_⟩
  · intro hbit
    rw [if_pos hbit]
  · intro h1 h2
    rw [if_neg (not_not_intro h1), if_pos h2]
  · intro h1 h2
    rw [if_neg (not_not_intro h1), if_neg (not_not_intro h2)]
    exact beq_iff_eq

/-- Witness for C2: a blocker with an explicit BL entry for the blockee. -/
theorem claim_C2_witness : _is_blocking exBlocker exBob = true :=
  (claim_C2_is_blocking exBlocker exBob exBlockerDetail rfl Lst.BL (by decide)).1 (by decide)

/-- Claim C6 evidence (code bug): `me_update` with `{'blp': 'BL'}` stores
the policy into `user.detail.settings['blp']`, while `_is_blocking` reads
`user.settings['BLP']`; the blocking decision for a user with no AL/BL
entry therefore stays `false` even though the claim requires `true`. -/
theorem claim_C6_blp_update :
    blockingAfterUpdate (me_update exStAB exSessA exBlpFields) "a" exBob = some false ∧
    detailBlpAfterUpdate (me_update exStAB exSessA exBlpFields) "a" = some (some "BL") := by
  constructor <;> rfl

/-- Claim C8 evidence (code bug): once the group is found, `me_group_edit`
reads the unbound variable `name` and dies with NameError — for a valid
rename and for an over-long new name alike; only the unknown-id path raises
`GroupDoesNotExist` as specified. -/
theorem claim_C8_group_edit :
    me_group_edit exStG exSessG "1" "Buddies" = .error .unboundName ∧
    me_group_edit exStG exSessG "99" "Buddies" = .error .groupDoesNotExist ∧
    me_group_edit exStG exSessG "1" (String.mk (List.replicate 70 'x')) = .error .unboundName :=
  ⟨rfl, rfl, rfl⟩

/-- Counterexample to claim C5 as stated: with user `a` holding a
self-contact and logged in twice, the fan-out for the first session delivers
a PresenceNotification to the second session, which belongs to `a` itself —
the claim says no session of the changed user receives one. -/
theorem claim_C5_counterexample :
    _generic_notify exStSelf ⟨1, "a"⟩ = [(⟨2, "a"⟩, Event.presenceNotification exSelfCtc)] ∧
    (⟨2, "a"⟩ : Session).userUuid = (⟨1, "a"⟩ : Session).userUuid := by
  constructor <;> rfl

/-- Claim C5 (amended): the presence fan-out delivers a
`PresenceNotification` to exactly those registered sessions, other than the
acting session itself, whose user's detail contains a contact entry for the
changed user. -/
theorem claim_C5_generic_notify (st : ServerState) (sess : Session) (u : User)
    (hu : getUser st sess.userUuid = some u) (p : Session × Event) :
    p ∈ _generic_notify st sess ↔
      (p.1 ∈ st.sessions ∧ p.1 ≠ sess ∧
       ∃ uo d c, getUser st p.1.userUuid = some uo ∧ uo.detail = some d ∧
         lookupk d.contacts u.uuid = some c ∧ p.2 = Event.presenceNotification c) := by
  obtain ⟨s, e⟩ := p
  unfold _generic_notify
  rw [hu, List.mem_filterMap]
  constructor
  · rintro ⟨s', hs', hf⟩
    by_cases he : s' = sess
    · rw [if_pos he] at hf
      exact Option.noConfusion hf
    · rw [if_neg he] at hf
      cases hg : getUser st s'.userUuid with
      | none => simp [hg] at hf
      | some uo =>
        cases hd : uo.detail with
        | none => simp [hg, hd] at hf
        | some d =>
          cases hc : lookupk d.contacts u.uuid with
          | none => simp [hg, hd, hc] at hf
          | some c =>
            simp only [hg, hd, hc, Option.some.injEq, Prod.mk.injEq] at hf
            obtain ⟨rfl, rfl⟩ := hf
            exact ⟨hs', he, uo, d, c, hg, hd, hc, rfl⟩
  · rintro ⟨hmem, hne, uo, d, c, hg, hd, hc, rfl⟩
    refine ⟨s, hmem, ?_⟩
    rw [if_neg hne]
    simp [hg, hd, hc]

/-- Witness for the amended C5: bob's session, holding a contact entry for
alice, receives alice's PresenceNotification. -/
theorem claim_C5_witness :
    ((⟨2, "b"⟩ : Session), Event.presenceNotification exCtcAliceForBob)
      ∈ _generic_notify exStN ⟨1, "a"⟩ :=
  (claim_C5_generic_notify exStN ⟨1, "a"⟩ exAlice (by decide)
      ((⟨2, "b"⟩ : Session), Event.presenceNotification exCtcAliceForBob)).mpr
    ⟨by decide, by decide, exBobN, exBobDetailA, exCtcAliceForBob, by decide, rfl, by decide, rfl⟩

/-- Claim C9 evidence (code bug): `get_oim_single` returns `None` exactly
when the OIM file exists, and raises (FileNotFoundError) when it does not —
the inverse of the claimed behaviour. -/
theorem claim_C9_get_oim_single :
    get_oim_single [(("a", "o1"), "rawjson")] "a" "o1" = .ok none ∧
    get_oim_single ([] : OimStore) "a" "o1" = .error .fileMissing := by
  constructor <;> rfl

/-- Counterexample to claim C7 as stated: `me_group_add` performs no
duplicate or reserved-name rejection — adding "Friends" again next to an
existing group "Friends" succeeds (id "2"), and so does the reserved name
"(No Group)". -/
theorem claim_C7_counterexample :
    groupOfAdd (me_group_add exStG exSessG "Friends") = some { id := "2", name := "Friends" } ∧
    groupOfAdd (me_group_add exStG exSessG "(No Group)")
      = some { id := "2", name := "(No Group)" } := by
  constructor <;> rfl

/-- Claim C7 (amended): `me_group_add` raises GroupNameTooLong for names
longer than 61 characters; it performs no reserved-name or duplicate check
(those rejections live in the SOAP front-end, before this call); on success
the new group carries the given name, its id is the decimal string of the
smallest positive integer not already used as a group id of that user, and
the group is inserted under that id. -/
theorem claim_C7_group_add (st : ServerState) (sess : Session) (name : String)
    (user : User) (d : UserDetail)
    (hu : getUser st sess.userUuid = some user) (hd : user.detail = some d)
    (huu : user.uuid = sess.userUuid) :
    (name.length > MAX_GROUP_NAME_LENGTH →
      me_group_add st sess name = .error .groupNameTooLong) ∧
    (name.length ≤ MAX_GROUP_NAME_LENGTH →
      ∃ g st', me_group_add st sess name = .ok (g, st') ∧ g.name = name ∧
        lookupk d.groups g.id = none ∧
        (∃ m, 0 < m ∧ g.id = natToDec m ∧
          ∀ j, 0 < j → j < m → (lookupk d.groups (natToDec j)).isSome) ∧
        ((getUser st' sess.userUuid).bind fun u => u.detail.map fun d2 => lookupk d2.groups g.id)
          = some (some g)) := by
  constructor
  · intro hlen
    unfold me_group_add
    rw [if_pos hlen]
  · intro hlen
    obtain ⟨m, hm1, hm2, hm3, hm4⟩ := gen_group_id_spec d.groups
    have heq : me_group_add st sess name =
        .ok ({ id := _gen_group_id d.groups, name := name },
          setUser st { user with detail := some { d with groups := setk d.groups (_gen_group_id d.groups) { id := _gen_group_id d.groups, name := name } } }) := by
      unfold me_group_add
      rw [if_neg (by omega)]
      simp only [hu, hd]
    refine ⟨_, _, heq, rfl, ?_, ⟨m, hm1, hm4, hm3⟩, ?_⟩
    · rw [hm4]
      exact hm2
    · show ((getUser (setUser st _) sess.userUuid).bind _) = _
      unfold setUser getUser
      rw [show ({ user with detail := some { d with groups := setk d.groups (_gen_group_id d.groups) { id := _gen_group_id d.groups, name := name } } } : User).uuid = sess.userUuid from huu]
      rw [lookupk_setk_self]
      simp [lookupk_setk_self]

/-- Witness for the amended C7: an over-long name is rejected, a fresh name
is accepted and carried by the returned group. -/
theorem claim_C7_witness :
    me_group_add exStG exSessG (String.mk (List.replicate 62 'x')) = .error .groupNameTooLong ∧
    ∃ g st', me_group_add exStG exSessG "Holidays" = .ok (g, st') ∧ g.name = "Holidays" := by
  constructor
  · exact (claim_C7_group_add exStG exSessG _ exGrpUser exGroupsDetail (by decide) rfl rfl).1
      (by decide)
  · obtain ⟨g, st', heq, hname, -, -, -⟩ :=
      (claim_C7_group_add exStG exSessG "Holidays" exGrpUser exGroupsDetail
        (by decide) rfl rfl).2 (by decide)
    exact ⟨g, st', heq, hname⟩

/-- Claim C10: `_add_to_list` on an existing entry whose stored display
name is non-nil ignores the `name` argument and changes the entry only by
or-ing the given bit into `lists`; the name argument takes effect only when
the entry is newly created or its stored name is nil. -/
theorem claim_C10_add_to_list_frame (st : ServerState) (a b : String) (lst : Nat)
    (name : Option String) (A : User) (dA : UserDetail)
    (ha : getUser st a = some A) (hd : A.detail = some dA) (hau : A.uuid = a) :
    (∀ c n, lookupk dA.contacts b = some c → c.status.name = some n →
      _add_to_list st a b lst name =
        .ok ({ c with lists := c.lists ||| lst },
          withContacts st a A dA (setk dA.contacts b { c with lists := c.lists ||| lst }))) ∧
    (∀ c, lookupk dA.contacts b = some c → c.status.name = none →
      _add_to_list st a b lst name =
        .ok ({ c with status := { c.status with name := name }, lists := c.lists ||| lst },
          withContacts st a A dA (setk dA.contacts b
            { c with status := { c.status with name := name }, lists := c.lists ||| lst }))) ∧
    (lookupk dA.contacts b = none →
      _add_to_list st a b lst name =
        .ok ({ headUuid := b, groups := [], lists := 0 ||| lst, status := UserStatus.init name "" },
          withContacts st a A dA (setk dA.contacts b
            { headUuid := b, groups := [], lists := 0 ||| lst, status := UserStatus.init name "" }))) := by
  refine ⟨?_, ?_, ?_⟩
  · intro c n hc hn
    have hval : addCtcResult dA b lst name = { c with lists := c.lists ||| lst } := by
      unfold addCtcResult
      rw [hc]
      simp [hn]
    rw [add_to_list_eq st a b lst name A dA ha hd hau, hval]
  · intro c hc hn
    have hval : addCtcResult dA b lst name =
        { c with status := { c.status with name := name }, lists := c.lists ||| lst } := by
      unfold addCtcResult
      rw [hc]
      simp [hn]
    rw [add_to_list_eq st a b lst name A dA ha hd hau, hval]
  · intro hc
    have hval : addCtcResult dA b lst name =
        { headUuid := b, groups := [], lists := 0 ||| lst, status := UserStatus.init name "" } := by
      unfold addCtcResult
      rw [hc]
      cases name <;> simp [UserStatus.init]
    rw [add_to_list_eq st a b lst name A dA ha hd hau, hval]

/-- Witness for C10: re-adding bob's existing contact entry for alice (whose
stored name is "Alice") under AL with a different name argument only or-s
the AL bit into `lists`. -/
theorem claim_C10_witness :
    _add_to_list exStN "b" "a" Lst.AL (some "Zed") =
      .ok ({ exCtcAliceForBob with lists := exCtcAliceForBob.lists ||| Lst.AL },
        withContacts exStN "b" exBobN exBobDetailA
          (setk exBobDetailA.contacts "a"
            { exCtcAliceForBob with lists := exCtcAliceForBob.lists ||| Lst.AL })) :=
  (claim_C10_add_to_list_frame exStN "b" "a" Lst.AL (some "Zed") exBobN exBobDetailA
    (by decide) rfl rfl).1 exCtcAliceForBob "Alice" (by decide) rfl

/-- Counterexample to claim C4 as stated: removing the AL bit from an
entry whose lists were exactly AL leaves the entry in the owner's contacts
map with `lists = 0` — the claim says an entry whose lists become zero is
deleted for any list bit. -/
theorem claim_C4_counterexample :
    (me_contact_remove exStAL exSessA "b" Lst.AL).toOption.bind (fun st' => ctcOf st' "a" "b")
      = some { headUuid := "b", groups := [], lists := 0,
               status := UserStatus.init (some "Bob") "" } := by
  rfl

/-- Claim C4 (amended): `me_contact_remove(sess, B.uuid, FL)` clears the FL
bit on A's entry for B and the RL bit on B's entry for A, where each of
those two removals (running through `_remove_from_list`) deletes its entry
exactly when its lists become zero; `lst = RL` is forbidden (assertion
failure); for any other list bit the entry's lists are masked in place and
the entry stays in the owner's contacts map even when its lists become
zero. -/
theorem claim_C4_contact_remove (st : ServerState) (sess : Session) (b : String) (lst : Nat)
    (A B : User) (dA dB : UserDetail) (c : Contact)
    (ha : getUser st sess.userUuid = some A) (hau : A.uuid = sess.userUuid)
    (hdA : A.detail = some dA)
    (hc : lookupk dA.contacts b = some c) (hch : c.headUuid = b)
    (hb : getUser st b = some B) (hbu : B.uuid = b) (hdB : B.detail = some dB)
    (hne : b ≠ sess.userUuid)
    (hndA : Nodupk dA.contacts) (hndB : Nodupk dB.contacts) :
    (lst = Lst.FL →
      ∃ st', me_contact_remove st sess b lst = .ok st' ∧
        ((ctcOf st' sess.userUuid b).map Contact.lists =
          if andNot c.lists Lst.FL = 0 then none else some (andNot c.lists Lst.FL)) ∧
        ((ctcOf st' b sess.userUuid).map Contact.lists =
          match lookupk dB.contacts sess.userUuid with
          | none => none
          | some cB => if andNot cB.lists Lst.RL = 0 then none
                       else some (andNot cB.lists Lst.RL))) ∧
    (lst = Lst.RL → me_contact_remove st sess b lst = .error .assertFailed) ∧
    (lst ≠ Lst.FL → lst ≠ Lst.RL →
      ∃ st', me_contact_remove st sess b lst = .ok st' ∧
        (ctcOf st' sess.userUuid b).map Contact.lists = some (andNot c.lists lst)) := by
  refine ⟨?_, ?_, ?_⟩
  · rintro rfl
    unfold me_contact_remove
    simp only [ha, hdA, hc]
    rw [if_pos trivial, hau, hch]
    rw [remove_from_list_eq st sess.userUuid b Lst.FL A dA ha hdA hau]
    simp only [hc]
    rw [except_bind_ok]
    have hb1 : getUser (withContacts st sess.userUuid A dA
        (if andNot c.lists Lst.FL = 0 then delk dA.contacts b
         else setk dA.contacts b { c with lists := andNot c.lists Lst.FL })) b = some B := by
      rw [getUser_withContacts_ne st sess.userUuid b A dA _ hne]
      exact hb
    rw [remove_from_list_eq _ b sess.userUuid Lst.RL B dB hb1 hdB hbu]
    rw [except_bind_ok]
    have hAside : ∀ st2 : ServerState,
        (ctcOf st2 sess.userUuid b =
          lookupk (if andNot c.lists Lst.FL = 0 then delk dA.contacts b
            else setk dA.contacts b { c with lists := andNot c.lists Lst.FL }) b) →
        (ctcOf (_sync_contact_statuses st2) sess.userUuid b).map Contact.lists =
          if andNot c.lists Lst.FL = 0 then none else some (andNot c.lists Lst.FL) := by
      intro st2 hst2
      rw [ctcOf_sync_lists, hst2]
      by_cases hz : andNot c.lists Lst.FL = 0
      · rw [if_pos hz, if_pos hz, lookupk_delk_self dA.contacts b hndA]
        rfl
      · rw [if_neg hz, if_neg hz, lookupk_setk_self]
        rfl
    cases hcb : lookupk dB.contacts sess.userUuid with
    | none =>
      simp only [hcb]
      refine ⟨_, rfl, ?_, ?_⟩
      · exact hAside _ (ctcOf_withContacts_self st sess.userUuid b A dA _)
      · rw [ctcOf_sync_lists]
        rw [ctcOf_withContacts_ne st sess.userUuid b sess.userUuid A dA _ hne]
        simp [ctcOf, hb, hdB, hcb]
    | some cB =>
      simp only [hcb]
      refine ⟨_, rfl, ?_, ?_⟩
      · refine hAside _ ?_
        rw [ctcOf_withContacts_ne _ b sess.userUuid b B dB _ (Ne.symm hne)]
        exact ctcOf_withContacts_self st sess.userUuid b A dA _
      · rw [ctcOf_sync_lists]
        rw [ctcOf_withContacts_self _ b sess.userUuid B dB _]
        by_cases hz : andNot cB.lists Lst.RL = 0
        · rw [if_pos hz, if_pos hz, lookupk_delk_self dB.contacts sess.userUuid hndB]
          rfl
        · rw [if_neg hz, if_neg hz, lookupk_setk_self]
          rfl
  · rintro rfl
    unfold me_contact_remove
    simp only [ha, hdA, hc]
    rw [if_neg (by decide), if_pos trivial]
  · intro hf hr
    unfold me_contact_remove
    simp only [ha, hdA, hc]
    rw [if_neg hf, if_neg hr]
    rw [setUser_eq_withContacts st A dA _ sess.userUuid hau]
    refine ⟨_, rfl, ?_⟩
    rw [ctcOf_sync_lists, ctcOf_withContacts_self, lookupk_setk_self]
    rfl

/-- Witness for the amended C4: removing RL directly is rejected by the
assertion. -/
theorem claim_C4_witness :
    me_contact_remove exStAL exSessA "b" Lst.RL = .error .assertFailed :=
  (claim_C4_contact_remove exStAL exSessA "b" Lst.RL exAlUser exBob exAlDetail emptyDetail
    exAlCtc (by decide) rfl rfl (by decide) rfl (by decide) rfl rfl (by decide)
    (by decide) (by decide)).2.1 rfl

/-- Counterexample to claim C3 as stated: when a user adds themself to
their own forward list (B = A), the acting session is a live session of B
but is skipped by `_notify_reverse_add`, so no `AddedToList` event is
delivered at all even though B has a live session and the call succeeds. -/
theorem claim_C3_counterexample :
    eventsOfAdd (me_contact_add exStOne ⟨1, "a"⟩ "a" Lst.FL (some "Alice")) = [] ∧
    (me_contact_add exStOne ⟨1, "a"⟩ "a" Lst.FL (some "Alice")).toOption.isSome = true ∧
    sessionsOfUser exStOne "a" = [⟨1, "a"⟩] := by
  refine ⟨rfl, rfl, rfl⟩

/-- Claim C3 (amended): for a logged-in session of user A and a known,
logged-in user B distinct from A: `me_contact_add(sess, B.uuid, FL, name)`
returns the pair (contact, B's uuid); afterwards A's contact entry for B has
the FL bit set and B's contact entry for A has the RL bit set (entries are
created if absent), and every live session of B — none of which is the
acting session, since B ≠ A — receives an `AddedToList(RL, A)` event. -/
theorem claim_C3_contact_add (st : ServerState) (sess : Session) (b : String)
    (name : Option String) (A B : User) (dA dB : UserDetail)
    (ha : getUser st sess.userUuid = some A) (hau : A.uuid = sess.userUuid)
    (hb : getUser st b = some B) (hbu : B.uuid = b)
    (hdA : A.detail = some dA) (hdB : B.detail = some dB)
    (hne : b ≠ sess.userUuid) :
    ∃ c st' evs, me_contact_add st sess b Lst.FL name = .ok (c, b, st', evs) ∧
      (∃ cA, ctcOf st' sess.userUuid b = some cA ∧ cA.lists &&& Lst.FL ≠ 0) ∧
      (∃ cB, ctcOf st' b sess.userUuid = some cB ∧ cB.lists &&& Lst.RL ≠ 0) ∧
      (∀ s, s ∈ st.sessions → s.userUuid = b →
        (s, Event.addedToList Lst.RL sess.userUuid) ∈ evs) := by
  have hb1 : getUser (withContacts st sess.userUuid A dA
      (setk dA.contacts b (addCtcResult dA b Lst.FL name))) b = some B := by
    rw [getUser_withContacts_ne st sess.userUuid b A dA _ hne]
    exact hb
  have e1 := add_to_list_eq st sess.userUuid b Lst.FL name A dA ha hdA hau
  have e2 := add_to_list_eq _ b sess.userUuid Lst.RL A.status.name B dB hb1 hdB hbu
  unfold me_contact_add
  simp only [hb, ha, hau, e1, e2, except_bind_ok, except_pure_bind, if_true]
  refine ⟨_, _, _, rfl, ?_, ?_, ?_⟩
  · have h2 : ctcOf (withContacts (withContacts st sess.userUuid A dA
        (setk dA.contacts b (addCtcResult dA b Lst.FL name))) b B dB
        (setk dB.contacts sess.userUuid (addCtcResult dB sess.userUuid Lst.RL A.status.name)))
        sess.userUuid b = some (addCtcResult dA b Lst.FL name) := by
      rw [ctcOf_withContacts_ne _ b sess.userUuid b B dB _ (Ne.symm hne)]
      rw [ctcOf_withContacts_self]
      exact lookupk_setk_self dA.contacts b _
    have h3 := ctcOf_sync_lists (withContacts (withContacts st sess.userUuid A dA
        (setk dA.contacts b (addCtcResult dA b Lst.FL name))) b B dB
        (setk dB.contacts sess.userUuid (addCtcResult dB sess.userUuid Lst.RL A.status.name)))
        sess.userUuid b
    rw [h2] at h3
    obtain ⟨cA, hcA, hcl⟩ := exists_of_map_lists_eq h3
    refine ⟨cA, hcA, ?_⟩
    rw [hcl]
    exact addCtcResult_bit dA b Lst.FL name (by decide)
  · have h2 : ctcOf (withContacts (withContacts st sess.userUuid A dA
        (setk dA.contacts b (addCtcResult dA b Lst.FL name))) b B dB
        (setk dB.contacts sess.userUuid (addCtcResult dB sess.userUuid Lst.RL A.status.name)))
        b sess.userUuid = some (addCtcResult dB sess.userUuid Lst.RL A.status.name) := by
      rw [ctcOf_withContacts_self]
      exact lookupk_setk_self dB.contacts sess.userUuid _
    have h3 := ctcOf_sync_lists (withContacts (withContacts st sess.userUuid A dA
        (setk dA.contacts b (addCtcResult dA b Lst.FL name))) b B dB
        (setk dB.contacts sess.userUuid (addCtcResult dB sess.userUuid Lst.RL A.status.name)))
        b sess.userUuid
    rw [h2] at h3
    obtain ⟨cB, hcB, hcl⟩ := exists_of_map_lists_eq h3
    refine ⟨cB, hcB, ?_⟩
    rw [hcl]
    exact addCtcResult_bit dB sess.userUuid Lst.RL A.status.name (by decide)
  · intro s hs hsu
    refine List.mem_append_left _ ?_
    unfold _notify_reverse_add sessionsOfUser
    rw [List.mem_filterMap]
    refine ⟨s, ?_, ?_⟩
    · rw [sessions_withContacts, sessions_withContacts]
      rw [List.mem_filter]
      exact ⟨hs, by simp [hsu]⟩
    · have hsne : s ≠ sess := by
        intro he
        rw [he] at hsu
        exact hne hsu.symm
      rw [if_neg hsne]

/-- Witness for the amended C3: alice adds bob (both logged in); bob's
session receives `AddedToList(RL, alice)` and both roster sides carry the
mirrored bits. -/
theorem claim_C3_witness :
    ∃ c st' evs, me_contact_add exStAB exSessA "b" Lst.FL (some "Bob") = .ok (c, "b", st', evs) ∧
      (∃ cA, ctcOf st' "a" "b" = some cA ∧ cA.lists &&& Lst.FL ≠ 0) ∧
      (∃ cB, ctcOf st' "b" "a" = some cB ∧ cB.lists &&& Lst.RL ≠ 0) ∧
      ((⟨2, "b"⟩ : Session), Event.addedToList Lst.RL "a") ∈ evs := by
  obtain ⟨c, st', evs, heq, hA, hB, hdeliver⟩ :=
    claim_C3_contact_add exStAB exSessA "b" (some "Bob") exAlice exBob emptyDetail emptyDetail
      (by decide) rfl (by decide) rfl rfl rfl (by decide)
  exact ⟨c, st', evs, heq, hA, hB, hdeliver ⟨2, "b"⟩ (by decide) rfl⟩

end Escargot

